import Mathlib

/-!
Shallow embedding of the structure-reconstruction core of the pdf2preserve
converter (`src/app.py`, class `PDFFormatter`), together with theorems
checking the natural-language specification against it.

Modelling conventions:
* Python strings are modelled as `List Char` (abbreviated `Str`);
  `str.strip()` and the regex classes `\s`, `\w`, `\d` are modelled over
  their ASCII fragments.
* Python floats (font sizes, page coordinates) are modelled as exact
  rationals; the program only compares them against decimal constants.
* The regexes used by the program (`^\d+\.\s`, `^[a-zA-Z][.)]\s`,
  `^[ivxlcdm]+\.\s`, `^[\w\d]+[.)]\s*`, ...) all have the shape
  "character-class run, separator, whitespace"; because the separator
  characters never belong to the run class, Python's backtracking regex
  engine agrees with the greedy run matchers implemented here.
* Calls against external writers (the structured-document library) are
  modelled as the list of calls the code makes, in order (`DocxOp`).
-/

unseal Rat.mul Rat.add Rat.sub Rat.inv

namespace Pdf2Preserve

abbrev Str : Type := List Char

/-- Whitespace characters of Python's `str.strip()` and of the regex class
`\s` (ASCII fragment). -/
def isPySpace (c : Char) : Bool :=
  c = ' ' || c = '\t' || c = '\n' || c = '\r' || c = '\x0b' || c = '\x0c'

/-- Python `str.strip()`: remove leading and trailing whitespace. -/
def pyStrip (s : Str) : Str :=
  ((s.dropWhile isPySpace).reverse.dropWhile isPySpace).reverse

/-- Python `str.startswith(p)`. -/
def startsWithStr : Str → Str → Bool
  | _, [] => true
  | [], _ :: _ => false
  | c :: t, p :: ps => if c = p then startsWithStr t ps else false

/-- Python `sep.join(parts)`. -/
def joinSep (sep : Str) : List Str → Str
  | [] => []
  | [x] => x
  | x :: xs => x ++ sep ++ joinSep sep xs

/-- Python `' '.join(parts)`. -/
def joinSpaces (parts : List Str) : Str := joinSep [' '] parts

/-- Number of occurrences of `pat` as a contiguous substring of `s`
(all start positions counted). -/
def countOccur (pat s : Str) : ℕ :=
  (List.range (s.length + 1)).countP (fun i => startsWithStr (s.drop i) pat)

inductive Alignment
  | left
  | center
  | right
  deriving DecidableEq

inductive PyListType
  | bullet
  | numbered
  | lettered
  | roman
  deriving DecidableEq

/-- Bounding box `(x0, y0, x1, y1)`. -/
structure Rect where
  x0 : ℚ
  y0 : ℚ
  x1 : ℚ
  y1 : ℚ
  deriving DecidableEq

/-- Bullet glyph patterns, `self.bullet_patterns` (src/app.py:97). -/
def bulletPatterns : List Str :=
  [['•'], ['●'], ['◦'], ['▪'], ['▫'], ['■'], ['□'], ['◆'], ['◇'], ['-'], ['*']]

/-- `PDFFormatter._calculate_heading_level` (src/app.py:206-222).
The `font` argument is accepted but never used by the code. -/
def calculateHeadingLevel (size : ℚ) (isBold : Bool) (font : Str) : ℕ :=
  if size ≤ 10 then 0
  else if size ≥ 20 then 1
  else if size ≥ 18 then 2
  else if size ≥ 16 then 3
  else if size ≥ 14 ∨ (isBold ∧ size ≥ 12) then 4
  else if isBold ∧ size ≥ 11 then 5
  else if size ≥ 13 then 6
  else 0

/-- Spec §4.1's fixed ordered heading-tier test, written from the spec's
wording (top-down, first match wins), for the refinement theorem of C1. -/
def specHeadingLevel (size : ℚ) (bold : Bool) : ℕ :=
  if size ≤ 10 then 0
  else if size ≥ 20 then 1
  else if size ≥ 18 then 2
  else if size ≥ 16 then 3
  else if size ≥ 14 ∨ (bold ∧ size ≥ 12) then 4
  else if bold ∧ size ≥ 11 then 5
  else if size ≥ 13 then 6
  else 0

/-- Auxiliary matcher: after at least one run character has been read,
consume further run characters, then require a separator from `seps`
followed by one whitespace character. -/
def matchRunAux (p : Char → Bool) (seps : List Char) : Str → Bool
  | [] => false
  | c :: t =>
    if p c then matchRunAux p seps t
    else if seps.contains c then
      match t with
      | d :: _ => isPySpace d
      | [] => false
    else false

/-- Prefix matcher for regexes of the form `^C+[seps]\s` where the class `C`
contains none of the separators (so greedy matching needs no backtracking). -/
def matchRun (p : Char → Bool) (seps : List Char) : Str → Bool
  | [] => false
  | c :: t => if p c then matchRunAux p seps t else false

/-- Prefix matcher for `^[a-zA-Z][seps]\s` (exactly one ASCII letter). -/
def matchLetter (seps : List Char) (t : Str) : Bool :=
  match t with
  | a :: c :: d :: _ => a.isAlpha && seps.contains c && isPySpace d
  | _ => false

def romanLowerChars : List Char := ['i', 'v', 'x', 'l', 'c', 'd', 'm']

def romanUpperChars : List Char := ['I', 'V', 'X', 'L', 'C', 'D', 'M']

def isRomanLower (c : Char) : Bool := romanLowerChars.contains c

def isRomanUpper (c : Char) : Bool := romanUpperChars.contains c

def isRomanAny (c : Char) : Bool := isRomanLower c || isRomanUpper c

/-- `PDFFormatter._is_list_item` (src/app.py:224-249): bullet glyph followed
by a space or tab, or one of the six numbered/lettered/roman prefix regexes
(`^\d+\.\s`, `^\d+\)\s`, `^[a-zA-Z]\.\s`, `^[a-zA-Z]\)\s`, `^[ivxlcdm]+\.\s`,
`^[IVXLCDM]+\.\s`). The code returns on the first match; since every branch
returns `True`, this is the disjunction of the tests. -/
def isListItem (t : Str) : Bool :=
  if t = [] then false
  else
    bulletPatterns.any (fun b => startsWithStr t (b ++ [' ']) || startsWithStr t (b ++ ['\t']))
    || matchRun (fun c => c.isDigit) ['.'] t
    || matchRun (fun c => c.isDigit) [')'] t
    || matchLetter ['.'] t
    || matchLetter [')'] t
    || matchRun isRomanLower ['.'] t
    || matchRun isRomanUpper ['.'] t

/-- `PDFFormatter._get_list_type` (src/app.py:251-268): bullet prefix (no
trailing space required here), then `^\d+[.)]\s`, then `^[a-zA-Z][.)]\s`,
then `^[ivxlcdmIVXLCDM]+\.\s`, first match wins, defaulting to bullet. -/
def getListType (t : Str) : Option PyListType :=
  if t = [] then none
  else if bulletPatterns.any (fun b => startsWithStr t b) then some PyListType.bullet
  else if matchRun (fun c => c.isDigit) ['.', ')'] t then some PyListType.numbered
  else if matchLetter ['.', ')'] t then some PyListType.lettered
  else if matchRun isRomanAny ['.'] t then some PyListType.roman
  else some PyListType.bullet

/-- The List Detector as the pipeline uses it (src/app.py:165-166):
`is_list = _is_list_item(text)` and
`list_type = _get_list_type(text) if is_list else None`. -/
def listDetect (t : Str) : Bool × Option PyListType :=
  (isListItem t, if isListItem t then getListType t else none)

/-- `PDFFormatter._detect_text_alignment` (src/app.py:270-306). `none` for
the line bbox models a missing/falsy bbox argument; `none` for the block
bbox models the call without a container block. -/
def detectTextAlignment (lineBbox : Option Rect) (pageWidth : ℚ)
    (blockBbox : Option Rect) : Alignment :=
  match lineBbox with
  | none => Alignment.left
  | some lb =>
    let containerLeft : ℚ := match blockBbox with | some bb => bb.x0 | none => 0
    let containerWidth : ℚ := match blockBbox with | some bb => bb.x1 - bb.x0 | none => pageWidth
    let lineLeftMargin := lb.x0 - containerLeft
    let lineRightMargin := (containerLeft + containerWidth) - lb.x1
    let centerThreshold := (1 / 10 : ℚ) * containerWidth
    let marginThreshold := (1 / 20 : ℚ) * containerWidth
    if |lineLeftMargin - lineRightMargin| < centerThreshold then Alignment.center
    else if lineRightMargin < marginThreshold ∧ lineLeftMargin > containerWidth * (3 / 10 : ℚ)
      then Alignment.right
    else if lineLeftMargin < marginThreshold then Alignment.left
    else Alignment.left

/-- Spec §4.3's alignment decision, written from the spec's wording, for
C8's refinement theorem. -/
def specAlignment (lineLeft lineRight containerLeft containerWidth : ℚ) : Alignment :=
  let leftMargin := lineLeft - containerLeft
  let rightMargin := (containerLeft + containerWidth) - lineRight
  let centerThreshold := (1 / 10 : ℚ) * containerWidth
  let marginThreshold := (1 / 20 : ℚ) * containerWidth
  if |leftMargin - rightMargin| < centerThreshold then Alignment.center
  else if rightMargin < marginThreshold ∧ leftMargin > containerWidth * (3 / 10 : ℚ)
    then Alignment.right
  else if leftMargin < marginThreshold then Alignment.left
  else Alignment.left
/-- Raw span from the extractor (src/app.py:149-154): text, font-flags
bitmask, point size, font name. -/
structure RawSpan where
  text : Str
  flags : ℕ
  size : ℚ
  font : Str
  deriving DecidableEq

/-- Raw line from the extractor: a bbox and its spans. -/
structure RawLine where
  bbox : Rect
  spans : List RawSpan
  deriving DecidableEq

/-- Raw page block from the extractor; `lines = none` models a block without
a "lines" key (e.g. an image block), which the assembler skips
(src/app.py:124-125). -/
structure RawBlock where
  bbox : Rect
  lines : Option (List RawLine)
  deriving DecidableEq

/-- A table's extracted 2D grid of optional string cells. -/
abbrev TableData := List (List (Option Str))

/-- A detected table region: its grid and bbox (src/app.py:113-120). -/
structure TableDetected where
  data : TableData
  bbox : Rect
  deriving DecidableEq

/-- A classified span as stored by `extract_with_formatting`
(src/app.py:168-179). -/
structure Span where
  text : Str
  bold : Bool
  italic : Bool
  size : ℚ
  font : Str
  heading : ℕ
  is_list : Bool
  list_type : Option PyListType
  alignment : Alignment
  bbox : Rect
  deriving DecidableEq

abbrev Line := List Span

inductive BlockKind
  | text
  | heading
  | list
  | paragraph
  deriving DecidableEq

inductive Block
  | text (kind : BlockKind) (content : List Line) (bbox : Rect)
  | table (data : TableData) (bbox : Rect)
  deriving DecidableEq

def Block.isTable : Block → Bool
  | Block.table _ _ => true
  | Block.text _ _ _ => false

/-- `PDFFormatter._bbox_overlap` (src/app.py:201-204). -/
def bboxOverlap (b1 b2 : Rect) : Bool :=
  ! decide (b1.x1 < b2.x0 ∨ b2.x1 < b1.x0 ∨ b1.y1 < b2.y0 ∨ b2.y1 < b1.y0)

/-- `PDFFormatter._detect_block_type` (src/app.py:308-320). -/
def detectBlockType (content : List Line) : BlockKind :=
  match content with
  | [] => BlockKind.text
  | firstLine :: _ =>
    if (match firstLine with | s :: _ => decide (s.heading > 0) | [] => false) then
      BlockKind.heading
    else if content.any (fun l => match l with | s :: _ => s.is_list | [] => false) then
      BlockKind.list
    else BlockKind.paragraph

/-- Per-span step of `extract_with_formatting` (src/app.py:149-179): trim the
text and drop the span if empty, decode bold/italic from flag bits 4 and 1,
classify the heading level and list status, record the line's alignment and
bbox. -/
def processSpan (lineAlignment : Alignment) (lineBbox : Rect) (raw : RawSpan) : Option Span :=
  let text := pyStrip raw.text
  if text = [] then none
  else
    let isBold := raw.flags.testBit 4
    let isListFlag := isListItem text
    some
      { text := text
        bold := isBold
        italic := raw.flags.testBit 1
        size := raw.size
        font := raw.font
        heading := calculateHeadingLevel raw.size isBold raw.font
        is_list := isListFlag
        list_type := if isListFlag then getListType text else none
        alignment := lineAlignment
        bbox := lineBbox }

/-- Per-line step of `extract_with_formatting` (src/app.py:141-179): the
alignment is detected once per line against the containing raw block. -/
def processLine (pageWidth : ℚ) (blockBbox : Rect) (rl : RawLine) : Line :=
  let lineAlignment := detectTextAlignment (some rl.bbox) pageWidth (some blockBbox)
  rl.spans.filterMap (processSpan lineAlignment rl.bbox)

/-- The accumulated `block_content` of one raw block (src/app.py:138-182):
the processed lines, dropping those with no surviving span. -/
def blockContent (pageWidth : ℚ) (blockBbox : Rect) (rawLines : List RawLine) : List Line :=
  (rawLines.map (processLine pageWidth blockBbox)).filter (fun l => ! l.isEmpty)

/-- Per-raw-block step of `extract_with_formatting` (src/app.py:124-191):
skip blocks without lines, skip blocks whose bbox overlaps a detected table,
process the lines dropping empty ones, and classify the block. -/
def processBlock (pageWidth : ℚ) (tables : List TableDetected) (rb : RawBlock) : Option Block :=
  match rb.lines with
  | none => none
  | some rawLines =>
    if tables.any (fun tb => bboxOverlap rb.bbox tb.bbox) then none
    else if (blockContent pageWidth rb.bbox rawLines).isEmpty then none
    else
      some (Block.text (detectBlockType (blockContent pageWidth rb.bbox rawLines))
        (blockContent pageWidth rb.bbox rawLines) rb.bbox)

/-- One page of `extract_with_formatting` (src/app.py:102-195): the surviving
text blocks in order, then the page's detected tables. -/
def assemblePage (pageWidth : ℚ) (rawBlocks : List RawBlock)
    (tables : List TableDetected) : List Block :=
  rawBlocks.filterMap (processBlock pageWidth tables)
    ++ tables.map (fun tb => Block.table tb.data tb.bbox)

/-- Raw input of one page, with the outcome of the external table detection
(`page.find_tables()` may raise). -/
structure RawPage where
  width : ℚ
  blocks : List RawBlock
  tablesResult : Except Unit (List TableDetected)

/-- Failure policy of src/app.py:109-122: a table-detection error is
swallowed by the bare `except: pass`, leaving the page with zero tables. -/
def pageTables (r : Except Unit (List TableDetected)) : List TableDetected :=
  match r with
  | Except.ok ts => ts
  | Except.error _ => []

def extractPage (p : RawPage) : List Block :=
  assemblePage p.width p.blocks (pageTables p.tablesResult)

/-- `PDFFormatter.extract_with_formatting` (src/app.py:99-199): concatenate
the assembled blocks of all pages, in page order. -/
def extractWithFormatting (pages : List RawPage) : List Block :=
  pages.flatMap extractPage

/-- ASCII fragment of the regex class `\w` (and of `[\d\w]`): letters,
digits, underscore. -/
def wordChar (c : Char) : Bool := c.isAlphanum || c = '_'

def dropSpacesLeft (t : Str) : Str := t.dropWhile isPySpace

/-- After the leading word character, consume the rest of a `[\w\d]+` run,
then require `.` or `)` and drop following whitespace, returning the
remainder; `none` when `^[\w\d]+[.)]\s*` does not match. -/
def markerRestAux : Str → Option Str
  | [] => none
  | c :: r =>
    if wordChar c then markerRestAux r
    else if c = '.' || c = ')' then some (dropSpacesLeft r)
    else none

/-- Python `re.sub(r'^[\d\w]+[\.\)]\s*', '', t)` (src/app.py:413, 560, 723). -/
def regexStripMarker (t : Str) : Str :=
  match t with
  | [] => t
  | c :: r =>
    if wordChar c then
      match markerRestAux r with
      | some rest => rest
      | none => t
    else t

/-- Whether `^[\d\w]+[\.\)]\s*` matches a prefix of `t`. -/
def matchesNumMarker (t : Str) : Bool :=
  match t with
  | c :: r => wordChar c && (markerRestAux r).isSome
  | [] => false

/-- Bullet-glyph stripping loop of the list renderers (src/app.py:406-410):
remove the first matching glyph prefix and strip the remainder; leave the
text unchanged when no glyph matches. -/
def stripBulletMarker : List Str → Str → Str
  | [], t => t
  | b :: bs, t => if startsWithStr t b then pyStrip (t.drop b.length) else stripBulletMarker bs t

/-- Combined marker stripping applied to a list item's first span text
(src/app.py:405-413, 552-560, 715-723): bullet-glyph strip, then the
numeric/alpha marker regex. -/
def listItemCore (bps : List Str) (t : Str) : Str :=
  regexStripMarker (stripBulletMarker bps t)

/-- One `<li>` of `_block_to_html_list` (src/app.py:405-419): marker-stripped
first-span text, the trailing spans' texts appended space-separated, the
whole stripped. -/
def htmlListItem (bps : List Str) (firstText : Str) (trailing : List Span) : Str :=
  let text := trailing.foldl (fun acc s => acc ++ [' '] ++ s.text) (listItemCore bps firstText)
  "<li>".toList ++ pyStrip text ++ "</li>".toList

def listOpenTag (lt : Option PyListType) : Str :=
  if lt = some PyListType.bullet then "<ul>".toList else "<ol>".toList

def listCloseTag (lt : Option PyListType) : Str :=
  if lt = some PyListType.bullet then "</ul>".toList else "</ol>".toList

/-- Loop of `PDFFormatter._block_to_html_list` (src/app.py:379-429), with the
running state (`current_list_type`, `list_open`). A non-list line is emitted
as a paragraph without closing the open container (as in the code). -/
def blockToHtmlListGo (bps : List Str) : List Line → Option PyListType → Bool → List Str
  | [], cur, opn => if opn then [listCloseTag cur] else []
  | line :: rest, cur, opn =>
    match line with
    | [] => blockToHtmlListGo bps rest cur opn
    | firstSpan :: trailing =>
      if firstSpan.is_list then
        let lt := firstSpan.list_type
        if opn = false ∨ lt ≠ cur then
          (if opn then [listCloseTag cur] else [])
            ++ listOpenTag lt
              :: htmlListItem bps firstSpan.text trailing
              :: blockToHtmlListGo bps rest lt true
        else
          htmlListItem bps firstSpan.text trailing :: blockToHtmlListGo bps rest cur opn
      else
        let lineText := joinSpaces (line.map (fun s => s.text))
        (if ! (pyStrip lineText).isEmpty then
            ["<p>".toList ++ lineText ++ "</p>".toList]
          else [])
          ++ blockToHtmlListGo bps rest cur opn

/-- `PDFFormatter._block_to_html_list` (src/app.py:379-429). -/
def blockToHtmlList (bps : List Str) (block : List Line) : List Str :=
  blockToHtmlListGo bps block none false

def lineText (l : Line) : Str := joinSpaces (l.map (fun s => s.text))

def blockText (block : List Line) : Str := joinSpaces (block.map lineText)

/-- `PDFFormatter._block_to_markdown_heading` (src/app.py:521-539). When the
alignment is center or right, the code appends an HTML div that repeats the
heading text after the `#` heading line. -/
def blockToMarkdownHeading (block : List Line) : List Str :=
  match block with
  | (s :: _) :: _ =>
    let text := blockText block
    let headingText := List.replicate s.heading '#' ++ ' ' :: text
    match s.alignment with
    | Alignment.center =>
        [headingText ++ '\n' :: "<div align=\"center\">".toList ++ text ++ "</div>".toList]
    | Alignment.right =>
        [headingText ++ '\n' :: "<div align=\"right\">".toList ++ text ++ "</div>".toList]
    | Alignment.left => [headingText]
  | _ => []

/-- Python truthiness of an optional string cell, `cell or ''`
(src/app.py:468, 478, 636, 645, 781). -/
def cellStr (c : Option Str) : Str :=
  match c with
  | some s => s
  | none => []

/-- The header test `cell and isinstance(cell, str) and cell.strip()`
(src/app.py:463). -/
def nonEmptyCell (c : Option Str) : Bool :=
  match c with
  | some s => ! s.isEmpty && ! (pyStrip s).isEmpty
  | none => false

/-- `PDFFormatter._table_to_html` (src/app.py:455-483), as the list of lines
the code accumulates before joining with newlines. -/
def tableToHtmlLines : TableData → List Str
  | [] => []
  | firstRow :: rest =>
    let hasHeaders := decide (0 < firstRow.length) && firstRow.any nonEmptyCell
    let headerPart :=
      if hasHeaders then
        "<thead><tr>".toList
          :: (firstRow.map (fun c => "<th>".toList ++ cellStr c ++ "</th>".toList)
            ++ ["</tr></thead>".toList])
      else []
    let dataRows := if hasHeaders then rest else firstRow :: rest
    "<table>".toList
      :: (headerPart
        ++ "<tbody>".toList
          :: (dataRows.flatMap (fun row =>
              "<tr>".toList
                :: (row.map (fun c => "<td>".toList ++ cellStr c ++ "</td>".toList)
                  ++ ["</tr>".toList]))
            ++ ["</tbody>".toList, "</table>".toList]))

def tableToHtml (td : TableData) : Str :=
  match td with
  | [] => []
  | _ => joinSep ['\n'] (tableToHtmlLines td)

/-- One markdown table row, `'| ' + ' | '.join(...) + ' |'` (src/app.py:636). -/
def mdRowLine (row : List (Option Str)) : Str :=
  "| ".toList ++ joinSep (" | ".toList) (row.map cellStr) ++ " |".toList

/-- The markdown separator row, `'|' + '---|' * n` (src/app.py:640). -/
def mdSepLine (n : ℕ) : Str :=
  '|' :: (List.replicate n ("---|".toList)).flatten

/-- `PDFFormatter._table_to_markdown` (src/app.py:628-648), as the
accumulated lines: the first row is always rendered in the header position,
followed by the separator and the remaining rows. -/
def tableToMarkdownLines : TableData → List Str
  | [] => []
  | firstRow :: rest => mdRowLine firstRow :: mdSepLine firstRow.length :: rest.map mdRowLine

def tableToMarkdown (td : TableData) : Str :=
  match td with
  | [] => []
  | _ => joinSep ['\n'] (tableToMarkdownLines td)

/-- Calls against the structured-document writer, in the order the code
makes them. -/
inductive DocxOp
  | addParagraph (style : Option Str) (alignment : Option Alignment) (indent : Option ℚ)
  | addRun (text : Str) (bold : Bool) (italic : Bool) (size : Option ℚ)
  | addHeading (text : Str) (level : ℕ) (alignment : Alignment)
  | addTable (rows : ℕ) (cols : ℕ)
  | setCellText (row : ℕ) (col : ℕ) (text : Str)
  | boldCell (row : ℕ) (col : ℕ)
  deriving DecidableEq

/-- `PDFFormatter._add_paragraph_to_docx` (src/app.py:745-767): one paragraph
with the first line's alignment, then one run per span with trailing space
and the size fallback `size if size > 8 else 11`. -/
def addParagraphToDocx (block : List Line) : List DocxOp :=
  match block with
  | [] => []
  | firstLine :: _ =>
    let alignment := match firstLine with
      | s :: _ => s.alignment
      | [] => Alignment.left
    DocxOp.addParagraph none (some alignment) none
      :: block.flatMap (fun line =>
        line.map (fun s =>
          DocxOp.addRun (s.text ++ [' ']) s.bold s.italic
            (some (if s.size > 8 then s.size else 11))))

/-- `PDFFormatter._add_list_to_docx` (src/app.py:705-743): every list line
becomes a paragraph with style "List Bullet" and indent 0.25 inches,
regardless of the line's detected list type; no list containers are opened
or closed. Non-list lines are delegated to the paragraph renderer. -/
def addListToDocx (bps : List Str) (block : List Line) : List DocxOp :=
  block.flatMap (fun line =>
    match line with
    | [] => []
    | firstSpan :: trailing =>
      if firstSpan.is_list then
        DocxOp.addParagraph (some ("List Bullet".toList)) none (some (1 / 4))
          :: DocxOp.addRun (listItemCore bps firstSpan.text) firstSpan.bold firstSpan.italic none
          :: trailing.map (fun s => DocxOp.addRun (' ' :: s.text) s.bold s.italic (some s.size))
      else addParagraphToDocx [line])

/-- The paragraph style of a writer call, when it is a paragraph. -/
def paraStyle : DocxOp → Option Str
  | DocxOp.addParagraph st _ _ => st
  | _ => none

/-- `PDFFormatter._add_table_to_docx` (src/app.py:769-787): create the grid,
fill each cell (columns beyond the first row's width are dropped), and bold
every cell of the first row. -/
def addTableToDocx (td : TableData) : List DocxOp :=
  match td with
  | [] => []
  | firstRow :: _ =>
    DocxOp.addTable td.length firstRow.length
      :: td.enum.flatMap (fun ir =>
        ir.2.enum.flatMap (fun jc =>
          if jc.1 < firstRow.length then
            DocxOp.setCellText ir.1 jc.1 (cellStr jc.2)
              :: (if ir.1 = 0 then [DocxOp.boldCell ir.1 jc.1] else [])
          else []))

/-- C1: the computed heading level equals the spec's fixed ordered tier test
(top-down, first match wins) for every size, boldness and font; in
particular a bold 13pt span gets level 4 (tier 4 wins over tier 6) and a
10pt span gets level 0 regardless of boldness. -/
theorem c1_heading_level_tiers :
    (∀ (size : ℚ) (isBold : Bool) (font : Str),
        calculateHeadingLevel size isBold font = specHeadingLevel size isBold)
    ∧ (∀ (font : Str), calculateHeadingLevel 13 true font = 4)
    ∧ (∀ (isBold : Bool) (font : Str), calculateHeadingLevel 10 isBold font = 0) :=
  ⟨fun _ _ _ => rfl, fun _ => by norm_num [calculateHeadingLevel],
    fun _ _ => by norm_num [calculateHeadingLevel]⟩

/-- C10: the font argument has no influence on the computed heading level
(two-run noninterference in the font input). -/
theorem c10_heading_level_font_noninterference :
    ∀ (size : ℚ) (isBold : Bool) (font1 font2 : Str),
      calculateHeadingLevel size isBold font1 = calculateHeadingLevel size isBold font2 :=
  fun _ _ _ _ => rfl

/-- C8: the Alignment Detector refines the spec's margin/threshold decision
procedure (Center, else Right, else Left), using the block bbox as the
container when supplied and defaulting to the page width with left edge 0
otherwise; a line with both margins 0 in a 200-wide container is Center. -/
theorem c8_alignment_decision :
    (∀ (lb : Rect) (pageWidth : ℚ) (bb : Rect),
        detectTextAlignment (some lb) pageWidth (some bb)
          = specAlignment lb.x0 lb.x1 bb.x0 (bb.x1 - bb.x0))
    ∧ (∀ (lb : Rect) (pageWidth : ℚ),
        detectTextAlignment (some lb) pageWidth none
          = specAlignment lb.x0 lb.x1 0 pageWidth)
    ∧ (∀ (lb : Rect) (pageWidth : ℚ) (y0 y1 : ℚ),
        detectTextAlignment (some lb) pageWidth none
          = detectTextAlignment (some lb) pageWidth (some ⟨0, y0, pageWidth, y1⟩))
    ∧ detectTextAlignment (some ⟨0, 0, 200, 10⟩) 200 (some ⟨0, 0, 200, 50⟩)
        = Alignment.center :=
  ⟨fun _ _ _ => rfl, fun _ _ => rfl,
    fun lb pw y0 y1 => by simp [detectTextAlignment], by decide⟩

/-- C2: every Text block emitted by the page assembler has a bbox disjoint
(by the non-disjoint rectangle test) from every detected table bbox of that
page, and a raw block overlapping any detected table is discarded entirely,
producing no block. -/
theorem c2_text_blocks_disjoint_from_tables :
    (∀ (pageWidth : ℚ) (rawBlocks : List RawBlock) (tables : List TableDetected)
        (kind : BlockKind) (content : List Line) (r : Rect),
        Block.text kind content r ∈ assemblePage pageWidth rawBlocks tables →
        ∀ tb ∈ tables, bboxOverlap r tb.bbox = false)
    ∧ (∀ (pageWidth : ℚ) (tables : List TableDetected) (rb : RawBlock)
        (tb : TableDetected), tb ∈ tables → bboxOverlap rb.bbox tb.bbox = true →
        processBlock pageWidth tables rb = none) := by
  constructor
  · intro pw rawBlocks tables kind content r hmem tb htb
    rcases List.mem_append.mp hmem with hmem | hmem
    · rcases List.mem_filterMap.mp hmem with ⟨rb, _, hpb⟩
      unfold processBlock at hpb
      split at hpb
      · cases hpb
      · split at hpb
        · cases hpb
        · next hov =>
            split at hpb
            · cases hpb
            · rw [Option.some.injEq] at hpb
              injection hpb with hkind hcontent hbbox
              subst hbbox
              simp only [Bool.not_eq_true, List.any_eq_false] at hov
              simpa using hov tb htb
    · rcases List.mem_map.mp hmem with ⟨tb2, _, heq⟩
      cases heq
  · intro pw tables rb tb htb hov
    unfold processBlock
    split
    · rfl
    · have hany : tables.any (fun tb2 => bboxOverlap rb.bbox tb2.bbox) = true :=
        List.any_eq_true.mpr ⟨tb, htb, hov⟩
      rw [if_pos hany]

/-- C9: a table-detection failure on a page yields exactly the blocks of a
page with zero detected tables: all text blocks are still assembled, no
table block is emitted, no error escapes (the extractor is a total
function), and the other pages of the document are unaffected. -/
theorem c9_table_detection_failure_isolated :
    (∀ (pw : ℚ) (blocks : List RawBlock) (e : Unit),
        extractPage ⟨pw, blocks, Except.error e⟩ = extractPage ⟨pw, blocks, Except.ok []⟩)
    ∧ (∀ (pw : ℚ) (blocks : List RawBlock) (e : Unit),
        extractPage ⟨pw, blocks, Except.error e⟩ = blocks.filterMap (processBlock pw []))
    ∧ (∀ (pw : ℚ) (blocks : List RawBlock) (e : Unit),
        (extractPage ⟨pw, blocks, Except.error e⟩).all (fun b => ! b.isTable) = true)
    ∧ (∀ (pre post : List RawPage) (pw : ℚ) (blocks : List RawBlock) (e : Unit),
        extractWithFormatting (pre ++ ⟨pw, blocks, Except.error e⟩ :: post)
          = extractWithFormatting pre
            ++ blocks.filterMap (processBlock pw []) ++ extractWithFormatting post) := by
  have h2 : ∀ (pw : ℚ) (blocks : List RawBlock) (e : Unit),
      extractPage ⟨pw, blocks, Except.error e⟩ = blocks.filterMap (processBlock pw []) := by
    intro pw blocks e
    simp [extractPage, assemblePage, pageTables]
  refine ⟨fun pw blocks e => rfl, h2, ?_, ?_⟩
  · intro pw blocks e
    rw [h2, List.all_eq_true]
    intro b hb
    rcases List.mem_filterMap.mp hb with ⟨rb, _, hpb⟩
    unfold processBlock at hpb
    split at hpb
    · cases hpb
    · split at hpb
      · cases hpb
      · split at hpb
        · cases hpb
        · rw [Option.some.injEq] at hpb
          subst hpb
          rfl
  · intro pre post pw blocks e
    simp [extractWithFormatting, h2]

/-- Concrete raw block for the C2 witness. -/
def c2RawBlockW : RawBlock :=
  { bbox := ⟨0, 0, 100, 10⟩
    lines := some [{ bbox := ⟨0, 0, 100, 10⟩
                     spans := [{ text := "Hello".toList, flags := 0, size := 12, font := [] }] }] }

/-- Concrete detected table for the C2 witness. -/
def c2TableW : TableDetected := { data := [[some ("X".toList)]], bbox := ⟨0, 200, 100, 300⟩ }

/-- The span the pipeline produces from `c2RawBlockW`. -/
def c2SpanW : Span :=
  { text := "Hello".toList, bold := false, italic := false, size := 12, font := []
    heading := 0, is_list := false, list_type := none, alignment := Alignment.center
    bbox := ⟨0, 0, 100, 10⟩ }

/-- Witness for C2 at a concrete page: the assembled paragraph block is in
the output and its bbox is disjoint from the detected table's bbox. -/
theorem c2_text_blocks_disjoint_from_tables_witness :
    bboxOverlap (⟨0, 0, 100, 10⟩ : Rect) c2TableW.bbox = false :=
  c2_text_blocks_disjoint_from_tables.1 612 [c2RawBlockW] [c2TableW] BlockKind.paragraph
    [[c2SpanW]] ⟨0, 0, 100, 10⟩ (by decide) c2TableW (by decide)

theorem startsWithStr_single (c g : Char) (t : Str) :
    startsWithStr (c :: t) [g] = decide (c = g) := by
  by_cases h : c = g <;> simp [startsWithStr, h]


theorem matchRunAux_mono (p q : Char → Bool) (seps : List Char)
    (hpq : ∀ c, p c = true → q c = true)
    (hs : ∀ c, c ∈ seps → q c = false) :
    ∀ t, matchRunAux p seps t = true → matchRunAux q seps t = true := by
  intro t
  induction t with
  | nil => intro h; exact absurd h (by simp [matchRunAux])
  | cons c r ih =>
    intro h
    simp only [matchRunAux] at h ⊢
    cases hcp : p c with
    | true =>
      have hq := hpq c hcp
      simp only [hcp] at h
      simp only [hq, if_true] at h ⊢
      exact ih h
    | false =>
      rw [if_neg (by simp [hcp])] at h
      by_cases hsc : seps.contains c = true
      · have hcmem : c ∈ seps := by simpa using hsc
        have hqc : q c = false := hs c hcmem
        rw [if_pos hsc] at h
        rw [if_neg (by simp [hqc]), if_pos hsc]
        exact h
      · rw [if_neg hsc] at h
        exact absurd h (by simp)

theorem matchRun_mono (p q : Char → Bool) (seps : List Char)
    (hpq : ∀ c, p c = true → q c = true)
    (hs : ∀ c, c ∈ seps → q c = false) (t : Str)
    (h : matchRun p seps t = true) : matchRun q seps t = true := by
  cases t with
  | nil => exact absurd h (by simp [matchRun])
  | cons c r =>
    simp only [matchRun] at h ⊢
    cases hcp : p c with
    | true =>
      have hq := hpq c hcp
      simp only [hcp, if_true] at h
      simp only [hq, if_true]
      exact matchRunAux_mono p q seps hpq hs r h
    | false => simp [hcp] at h

theorem matchRun_head (p : Char → Bool) (seps : List Char) (t : Str)
    (h : matchRun p seps t = true) : ∃ c r, t = c :: r ∧ p c = true := by
  cases t with
  | nil => exact absurd h (by simp [matchRun])
  | cons c r =>
    refine ⟨c, r, rfl, ?_⟩
    by_contra hcp
    have hcp' : p c = false := by simpa using hcp
    simp [matchRun, hcp'] at h

theorem roman_head_not_bullet (c : Char) (h : isRomanAny c = true) (t : Str) :
    bulletPatterns.any (fun b => startsWithStr (c :: t) b) = false := by
  have hc : c ∈ romanLowerChars ∨ c ∈ romanUpperChars := by
    simpa [isRomanAny, isRomanLower, isRomanUpper] using h
  rcases hc with hc | hc <;>
    simp only [romanLowerChars, romanUpperChars, List.mem_cons, List.not_mem_nil, or_false] at hc <;>
    rcases hc with rfl | rfl | rfl | rfl | rfl | rfl | rfl <;>
    simp [bulletPatterns, startsWithStr_single]

theorem roman_head_not_digit (c : Char) (h : isRomanAny c = true) : c.isDigit = false := by
  have hc : c ∈ romanLowerChars ∨ c ∈ romanUpperChars := by
    simpa [isRomanAny, isRomanLower, isRomanUpper] using h
  rcases hc with hc | hc <;>
    simp only [romanLowerChars, romanUpperChars, List.mem_cons, List.not_mem_nil, or_false] at hc <;>
    rcases hc with rfl | rfl | rfl | rfl | rfl | rfl | rfl <;> decide

/-- C6 (amended): a trimmed text matching one of the code's two uniform-case
roman regexes (`^[ivxlcdm]+\.\s` or `^[IVXLCDM]+\.\s`) and not matching the
single-letter lettered pattern `^[a-zA-Z][.)]\s` is detected as a list item
of type Roman. (Mixed-case roman markers such as "Iv. " are not detected at
all; see the counterexample.) -/
theorem c6_roman_list_type (t : Str)
    (hroman : matchRun isRomanLower ['.'] t = true ∨ matchRun isRomanUpper ['.'] t = true)
    (hletter : matchLetter ['.', ')'] t = false) :
    listDetect t = (true, some PyListType.roman) := by
  have hsep : ∀ c, c ∈ (['.'] : List Char) → isRomanAny c = false := by
    intro c hc
    simp only [List.mem_cons, List.not_mem_nil, or_false] at hc
    subst hc
    decide
  have hrAny : matchRun isRomanAny ['.'] t = true := by
    rcases hroman with h | h
    · exact matchRun_mono _ _ _ (fun c hc => by simp [isRomanAny, hc]) hsep t h
    · exact matchRun_mono _ _ _ (fun c hc => by simp [isRomanAny, hc]) hsep t h
  obtain ⟨c, r, rfl, hcAny⟩ := matchRun_head isRomanAny ['.'] t hrAny
  have hbul := roman_head_not_bullet c hcAny r
  have hdig : c.isDigit = false := roman_head_not_digit c hcAny
  have hnum : matchRun (fun c => c.isDigit) ['.', ')'] (c :: r) = false := by
    simp [matchRun, hdig]
  have hIsList : isListItem (c :: r) = true := by
    rcases hroman with h | h <;> simp [isListItem, h]
  have hGet : getListType (c :: r) = some PyListType.roman := by
    simp [getListType, hbul, hnum, hletter, hrAny]
  simp [listDetect, hIsList, hGet]

/-- Witness for C6 at "iv. x". -/
theorem c6_roman_list_type_witness :
    listDetect ("iv. x".toList) = (true, some PyListType.roman) :=
  c6_roman_list_type ("iv. x".toList) (Or.inl (by decide)) (by decide)

/-- Counterexample for C6 as stated: "Iv. x" matches the combined-case roman
regex `^[ivxlcdmIVXLCDM]+\.\s` and none of the earlier patterns, yet the
List Detector does not mark it as a list item at all. -/
theorem c6_mixed_case_roman_counterexample :
    matchRun isRomanAny ['.'] ("Iv. x".toList) = true
    ∧ bulletPatterns.any (fun b => startsWithStr ("Iv. x".toList) b) = false
    ∧ matchRun (fun c => c.isDigit) ['.', ')'] ("Iv. x".toList) = false
    ∧ matchLetter ['.', ')'] ("Iv. x".toList) = false
    ∧ listDetect ("Iv. x".toList) = (false, none) := by
  refine ⟨by decide, by decide, by decide, by decide, by decide⟩

theorem pyStrip_cons_space (t : Str) : pyStrip (' ' :: t) = pyStrip t := by
  simp [pyStrip, List.dropWhile_cons, isPySpace]

theorem regexStripMarker_no_match (t : Str) (h : matchesNumMarker t = false) :
    regexStripMarker t = t := by
  cases t with
  | nil => rfl
  | cons c r =>
    by_cases hw : wordChar c = true
    · simp only [matchesNumMarker, hw, Bool.true_and] at h
      cases hm : markerRestAux r with
      | some rest => rw [hm] at h; simp at h
      | none => simp [regexStripMarker, hw, hm]
    · have hw' : wordChar c = false := by simpa using hw
      simp [regexStripMarker, hw']

/-- C4 (amended): for a first-span text consisting of a bullet glyph, one
space, and a trimmed remainder that does not itself begin with a
`^[\w\d]+[.)]`-style marker, stripping yields exactly the remainder.
(When the remainder does begin with such a marker, the regex strips it too;
see the counterexample.) -/
theorem c4_bullet_marker_strip (c : Char) (rest : Str)
    (hglyph : [c] ∈ bulletPatterns)
    (htrim : pyStrip rest = rest)
    (hnomark : matchesNumMarker rest = false) :
    listItemCore bulletPatterns (c :: ' ' :: rest) = rest := by
  have hstrip : stripBulletMarker bulletPatterns (c :: ' ' :: rest) = pyStrip (' ' :: rest) := by
    simp only [bulletPatterns, List.mem_cons, List.cons.injEq, and_true,
      List.not_mem_nil, or_false] at hglyph
    rcases hglyph with rfl | rfl | rfl | rfl | rfl | rfl | rfl | rfl | rfl | rfl | rfl <;> rfl
  unfold listItemCore
  rw [hstrip, pyStrip_cons_space, htrim, regexStripMarker_no_match rest hnomark]

/-- Witness for C4 at "• hello". -/
theorem c4_bullet_marker_strip_witness :
    listItemCore bulletPatterns ('•' :: ' ' :: "hello".toList) = "hello".toList :=
  c4_bullet_marker_strip '•' ("hello".toList) (by decide) (by decide) (by decide)

/-- Counterexample for C4 as stated: for "• a) hello" the text after the
bullet marker is "a) hello", but the renderer's secondary regex strips the
"a) " as well, emitting "hello". -/
theorem c4_regex_double_strip_counterexample :
    listItemCore bulletPatterns ("• a) hello".toList) = "hello".toList
    ∧ "hello".toList ≠ ("a) hello".toList)
    ∧ blockToHtmlList bulletPatterns
        [[⟨"• a) hello".toList, false, false, 12, [], 0, true, some PyListType.bullet,
           Alignment.left, ⟨0, 0, 0, 0⟩⟩]]
      = ["<ul>".toList, "<li>hello</li>".toList, "</ul>".toList] := by
  refine ⟨by decide, by decide, by decide⟩

/-- C3 (amended): in the HTML renderer the list state machine closes the
open container and opens a fresh one of the new type at every type change
and at block end: a block of a Bullet item, a Numbered item and a Bullet
item (one span per line) emits three separate containers, ul then ol then
ul, each properly closed. (The structured-document renderer does not: it
emits every item as a bullet-style paragraph; see the counterexample.) -/
theorem c3_html_list_three_containers (s1 s2 s3 : Span)
    (h1 : s1.is_list = true) (h2 : s2.is_list = true) (h3 : s3.is_list = true)
    (t1 : s1.list_type = some PyListType.bullet)
    (t2 : s2.list_type = some PyListType.numbered)
    (t3 : s3.list_type = some PyListType.bullet) :
    blockToHtmlList bulletPatterns [[s1], [s2], [s3]]
      = ["<ul>".toList, htmlListItem bulletPatterns s1.text [], "</ul>".toList,
         "<ol>".toList, htmlListItem bulletPatterns s2.text [], "</ol>".toList,
         "<ul>".toList, htmlListItem bulletPatterns s3.text [], "</ul>".toList] := by
  simp [blockToHtmlList, blockToHtmlListGo, h1, h2, h3, t1, t2, t3, listOpenTag, listCloseTag]

def c3BulletA : Span :=
  ⟨"• a".toList, false, false, 12, [], 0, true, some PyListType.bullet,
    Alignment.left, ⟨0, 0, 0, 0⟩⟩

def c3NumberedB : Span :=
  ⟨"1. b".toList, false, false, 12, [], 0, true, some PyListType.numbered,
    Alignment.left, ⟨0, 0, 0, 0⟩⟩

def c3BulletC : Span :=
  ⟨"• c".toList, false, false, 12, [], 0, true, some PyListType.bullet,
    Alignment.left, ⟨0, 0, 0, 0⟩⟩

/-- Witness for C3 at a concrete Bullet, Numbered, Bullet block. -/
theorem c3_html_list_three_containers_witness :
    blockToHtmlList bulletPatterns [[c3BulletA], [c3NumberedB], [c3BulletC]]
      = ["<ul>".toList, "<li>a</li>".toList, "</ul>".toList,
         "<ol>".toList, "<li>b</li>".toList, "</ol>".toList,
         "<ul>".toList, "<li>c</li>".toList, "</ul>".toList] := by
  rw [c3_html_list_three_containers c3BulletA c3NumberedB c3BulletC rfl rfl rfl rfl rfl rfl]
  decide

/-- Counterexample for C3 as stated ("in every renderer"): the
structured-document renderer gives all three items, including the Numbered
one, a bullet-style paragraph; it opens no type-specific containers. -/
theorem c3_docx_list_counterexample :
    addListToDocx bulletPatterns [[c3BulletA], [c3NumberedB], [c3BulletC]]
      = [DocxOp.addParagraph (some ("List Bullet".toList)) none (some (1 / 4)),
         DocxOp.addRun ("a".toList) false false none,
         DocxOp.addParagraph (some ("List Bullet".toList)) none (some (1 / 4)),
         DocxOp.addRun ("b".toList) false false none,
         DocxOp.addParagraph (some ("List Bullet".toList)) none (some (1 / 4)),
         DocxOp.addRun ("c".toList) false false none]
    ∧ (addListToDocx bulletPatterns [[c3BulletA], [c3NumberedB], [c3BulletC]]).filterMap paraStyle
        = ["List Bullet".toList, "List Bullet".toList, "List Bullet".toList] := by
  refine ⟨by decide, by decide⟩

/-- C5 (amended): only the HTML renderer applies the header test — it emits
a header row iff the first row has at least one non-empty string cell; the
structured-document renderer bolds exactly the cells of row 0 regardless of
content, and the lightweight-markup renderer always renders the first row in
the header position. Empty cells render blank in all renderers. -/
theorem c5_table_header_rendering (firstRow : List (Option Str)) (rest : TableData) :
    (("<thead><tr>".toList ∈ tableToHtmlLines (firstRow :: rest))
        ↔ firstRow.any nonEmptyCell = true)
    ∧ (∀ i j : ℕ, DocxOp.boldCell i j ∈ addTableToDocx (firstRow :: rest) → i = 0)
    ∧ (firstRow ≠ [] → DocxOp.boldCell 0 0 ∈ addTableToDocx (firstRow :: rest))
    ∧ tableToMarkdownLines (firstRow :: rest)
        = mdRowLine firstRow :: mdSepLine firstRow.length :: rest.map mdRowLine := by
  refine ⟨?_, ?_, ?_, rfl⟩
  · cases hH : (decide (0 < firstRow.length) && firstRow.any nonEmptyCell) with
    | true =>
      have hany : firstRow.any nonEmptyCell = true := by
        have h := hH
        simp only [Bool.and_eq_true] at h
        exact h.2
      rw [hany]
      simp only [iff_true]
      simp [tableToHtmlLines, hH]
    | false =>
      constructor
      · intro hmem
        exfalso
        simp only [tableToHtmlLines, hH, Bool.false_eq_true, if_false, List.nil_append] at hmem
        simp at hmem
      · intro hany
        exfalso
        obtain ⟨x, hx, -⟩ := List.any_eq_true.mp hany
        have hlen : 0 < firstRow.length := List.length_pos.mpr (List.ne_nil_of_mem hx)
        rw [hany, decide_eq_true hlen] at hH
        simp at hH
  · intro i j hmem
    unfold addTableToDocx at hmem
    rcases List.mem_cons.mp hmem with h | h
    · cases h
    · rcases List.mem_flatMap.mp h with ⟨ir, _, hin⟩
      rcases List.mem_flatMap.mp hin with ⟨jc, _, hin2⟩
      by_cases hlt : jc.1 < firstRow.length
      · rw [if_pos hlt] at hin2
        rcases List.mem_cons.mp hin2 with h2 | h2
        · cases h2
        · by_cases hz : ir.1 = 0
          · rw [if_pos hz] at h2
            rcases List.mem_cons.mp h2 with h3 | h3
            · injection h3 with hi hj
              rw [hi, hz]
            · cases h3
          · rw [if_neg hz] at h2
            cases h2
      · rw [if_neg hlt] at hin2
        cases hin2
  · intro hne
    cases firstRow with
    | nil => exact absurd rfl hne
    | cons c0 tail =>
      unfold addTableToDocx
      refine List.mem_cons_of_mem _ ?_
      refine List.mem_flatMap.mpr ⟨(0, c0 :: tail), ?_, ?_⟩
      · simp [List.enum_cons]
      · refine List.mem_flatMap.mpr ⟨(0, c0), ?_, ?_⟩
        · simp [List.enum_cons]
        · simp

def c5FirstRowW : List (Option Str) := [some ("Name".toList), some ("Age".toList)]

def c5RestW : TableData := [[some ("Ann".toList), some ("30".toList)]]

/-- Witness for C5 at the 2-by-2 grid Name/Age, Ann/30: the HTML renderer
emits a header row and the structured-document renderer bolds cell (0,0). -/
theorem c5_table_header_rendering_witness :
    ("<thead><tr>".toList ∈ tableToHtmlLines (c5FirstRowW :: c5RestW))
    ∧ DocxOp.boldCell 0 0 ∈ addTableToDocx (c5FirstRowW :: c5RestW) :=
  ⟨(c5_table_header_rendering c5FirstRowW c5RestW).1.mpr (by decide),
    (c5_table_header_rendering c5FirstRowW c5RestW).2.2.1 (by decide)⟩

/-- Counterexample for C5 as stated: the table whose first row is all-empty
should, per the claim, be rendered with all rows as plain data rows in every
renderer; yet the structured-document renderer still bolds the first row's
cells and the lightweight-markup renderer still renders it in the header
position. -/
theorem c5_always_header_counterexample :
    ([[none, none], [some ("Ann".toList), some ("30".toList)]] : TableData).head?.map
        (fun r => r.any nonEmptyCell) = some false
    ∧ DocxOp.boldCell 0 0
        ∈ addTableToDocx [[none, none], [some ("Ann".toList), some ("30".toList)]]
    ∧ tableToMarkdownLines [[none, none], [some ("Ann".toList), some ("30".toList)]]
        = ["|  |  |".toList, "|---|---|".toList, "| Ann | 30 |".toList] := by
  refine ⟨by decide, by decide, by decide⟩

/-- C7 (amended): in lightweight-markup mode a heading block with alignment
Left emits just the `#` heading line, the text appearing once; with Center
or Right alignment the renderer emits the `#` heading line followed by an
alignment div that contains a second copy of the heading text — the text
appears twice, not once. -/
theorem c7_markdown_heading_alignment (s : Span) (l : List Span) (rest : List Line) :
    blockToMarkdownHeading ((s :: l) :: rest)
      = [match s.alignment with
         | Alignment.left =>
             List.replicate s.heading '#' ++ ' ' :: blockText ((s :: l) :: rest)
         | Alignment.center =>
             (List.replicate s.heading '#' ++ ' ' :: blockText ((s :: l) :: rest))
               ++ '\n' :: "<div align=\"center\">".toList
               ++ blockText ((s :: l) :: rest) ++ "</div>".toList
         | Alignment.right =>
             (List.replicate s.heading '#' ++ ' ' :: blockText ((s :: l) :: rest))
               ++ '\n' :: "<div align=\"right\">".toList
               ++ blockText ((s :: l) :: rest) ++ "</div>".toList] := by
  cases h : s.alignment <;> simp [blockToMarkdownHeading, h]

def c7TitleSpan : Span :=
  ⟨"Title".toList, true, false, 22, [], 1, false, none, Alignment.center, ⟨0, 0, 0, 0⟩⟩

/-- Counterexample for C7 as stated: for a centered level-1 heading "Title"
the lightweight-markup output contains the heading text twice (once in the
`#` line and once inside the alignment div), not exactly once. -/
theorem c7_duplicate_heading_counterexample :
    blockToMarkdownHeading [[c7TitleSpan]]
      = ["# Title\n<div align=\"center\">Title</div>".toList]
    ∧ countOccur ("Title".toList) ("# Title\n<div align=\"center\">Title</div>".toList) = 2 := by
  refine ⟨by decide, by decide⟩

end Pdf2Preserve
